import Mathlib

/-!
Verification of the herostack-kanban positional-ordering and board-access
subsystem.  The definitions below are a shallow embedding of the repository's
API route handlers and permission helpers: the database tables become lists of
records, each Drizzle query/update becomes the corresponding pure list
operation, and every route handler becomes a function from a request and a
state to a response, a new state, and the sequence of database-write /
activity-log events it performs, in source order.
-/

namespace Kanban

/-- Board roles, `BoardRole` in the schema. -/
inductive Role
  | owner
  | editor
  | viewer
  deriving DecidableEq, Repr

/-- Board type: `"personal"` or `"team"`. -/
inductive BType
  | personal
  | team
  deriving DecidableEq, Repr

/-- A row of `kanban_boards` (the fields the access/ordering core reads). -/
structure Board where
  id : Nat
  createdBy : Nat
  btype : BType
  teamId : Option Nat
  deriving DecidableEq, Repr

/-- A row of `kanban_board_members`. -/
structure BoardMember where
  boardId : Nat
  userId : Nat
  role : Role
  deriving DecidableEq, Repr

/-- A row of the host's `team_members` table. -/
structure TeamMember where
  teamId : Nat
  userId : Nat
  deriving DecidableEq, Repr

/-- A row of `kanban_columns` (the fields the ordering core reads). -/
structure Column where
  id : Nat
  boardId : Nat
  name : String
  position : Int
  deriving DecidableEq, Repr

/-- A row of `kanban_cards` (the fields the ordering core reads). -/
structure Card where
  id : Nat
  columnId : Nat
  boardId : Nat
  position : Int
  isArchived : Bool
  deriving DecidableEq, Repr

/-- `checkBoardAccess` from `lib/permissions.ts`: board lookup, then
creator check, then explicit member row, then implicit team-editor,
else no access.  `none` models `hasAccess: false`. -/
def checkBoardAccess (boards : List Board) (members : List BoardMember)
    (teamMembers : List TeamMember) (boardId userId : Nat) : Option Role :=
  match boards.find? (fun b => b.id == boardId) with
  | none => none
  | some board =>
    if board.createdBy == userId then
      some Role.owner
    else
      match members.find? (fun m => m.boardId == boardId && m.userId == userId) with
      | some m => some m.role
      | none =>
        match board.teamId with
        | some tid =>
          if board.btype == BType.team
              && teamMembers.any (fun t => t.teamId == tid && t.userId == userId) then
            some Role.editor
          else
            none
        | none => none

/-- `canEdit` from `lib/permissions.ts`. -/
def canEdit (role : Role) : Bool :=
  role == Role.owner || role == Role.editor

/-- `canDelete` from `lib/permissions.ts`. -/
def canDelete (role : Role) : Bool :=
  role == Role.owner

/-- Head position of a `orderBy desc(position)` query over a scope: the
maximum position value, `none` on an empty scope. -/
def maxPos? : List Int → Option Int
  | [] => none
  | p :: ps =>
    match maxPos? ps with
    | none => some p
    | some m => some (max p m)

/-- Column create, `POST boards/[boardId]/columns` step 4-6: default position
is `(existingColumns[0]?.position ?? -1) + 1`; when an explicit position is
given and `position <= (existingColumns[0]?.position ?? 0)`, every column of
the board with `position > position - 1` is shifted up by one; then the new
column row is inserted at the requested position. -/
def createColumn (cols : List Column) (boardId : Nat) (name : String)
    (pos? : Option Int) (newId : Nat) : List Column :=
  let mp := maxPos? ((cols.filter (fun c => c.boardId == boardId)).map (fun c => c.position))
  let newPosition :=
    match pos? with
    | some p => p
    | none => mp.getD (-1) + 1
  let base :=
    match pos? with
    | some p =>
      if p ≤ mp.getD 0 then
        cols.map (fun c =>
          if c.boardId = boardId ∧ p - 1 < c.position then
            { c with position := c.position + 1 }
          else c)
      else cols
    | none => cols
  base ++ [{ id := newId, boardId := boardId, name := name, position := newPosition }]

/-- One iteration of the renumber/reorder loops:
`update kanban_columns set position = p where id = cid`. -/
def setColPos (cols : List Column) (cid : Nat) (p : Int) : List Column :=
  cols.map (fun c => if c.id = cid then { c with position := p } else c)

/-- Insert into a list sorted by ascending position. -/
def insertByPos (x : Column) : List Column → List Column
  | [] => [x]
  | y :: ys => if x.position ≤ y.position then x :: y :: ys else y :: insertByPos x ys

/-- Sort columns by ascending position (the `orderBy asc(position)` fetch). -/
def sortColsByPos : List Column → List Column
  | [] => []
  | x :: xs => insertByPos x (sortColsByPos xs)

/-- Column delete step 6: fetch the board's remaining columns ordered by
ascending position and assign them sequential positions `0, 1, ...` by id. -/
def renumberColumns (cols : List Column) (boardId : Nat) : List Column :=
  let remaining := sortColsByPos (cols.filter (fun c => c.boardId == boardId))
  remaining.enum.foldl (fun acc ic => setColPos acc ic.2.id (ic.1 : Int)) cols

/-- Column delete, `DELETE boards/[boardId]/columns/[columnId]` steps 3-6:
404 when the column id does not exist; otherwise delete the column row by id,
cascade-delete its cards, and renumber the request board's remaining columns
sequentially. -/
def deleteColumn (cols : List Column) (cards : List Card)
    (boardId columnId : Nat) : List Column × List Card :=
  match cols.find? (fun c => c.id == columnId) with
  | none => (cols, cards)
  | some _ =>
    let cols1 := cols.filter (fun c => !(c.id == columnId))
    let cards1 := cards.filter (fun c => !(c.columnId == columnId))
    (renumberColumns cols1 boardId, cards1)

/-- Column reorder, `POST boards/[boardId]/columns/reorder` step 4: for each
index `i`, `update kanban_columns set position = i where id = columnIds[i]` —
by id alone, with no board filter and no scope validation. -/
def reorderColumns (cols : List Column) (columnIds : List Nat) : List Column :=
  columnIds.enum.foldl (fun acc ic => setColPos acc ic.2 (ic.1 : Int)) cols

/-- Card create, `POST boards/[boardId]/cards` steps 5-6: default position is
`(existingCards[0]?.position ?? -1) + 1` over the column's non-archived cards;
the new card row is inserted at the requested (or default) position and no
existing card is updated. -/
def createCard (cards : List Card) (columnId boardId : Nat)
    (pos? : Option Int) (newId : Nat) : List Card :=
  let mp := maxPos?
    ((cards.filter (fun c => c.columnId == columnId && !c.isArchived)).map (fun c => c.position))
  let newPosition :=
    match pos? with
    | some p => p
    | none => mp.getD (-1) + 1
  cards ++ [{ id := newId, columnId := columnId, boardId := boardId,
              position := newPosition, isArchived := false }]

/-- Card delete, `DELETE cards/[cardId]` step 5: delete the row by id;
no sibling position is updated. -/
def deleteCard (cards : List Card) (cardId : Nat) : List Card :=
  cards.filter (fun c => !(c.id == cardId))

/-- Card move, `POST cards/[cardId]/move` steps 6-7.  Same column: no-op when
the position is unchanged, otherwise shift the closed sub-range between source
and destination among the column's non-archived cards, then write the moved
card.  Different column: compact the source column above the source position,
open a gap in the target column at or above the destination, then write the
moved card with its new column and position. -/
def moveCardCore (cards : List Card) (card : Card) (columnId : Nat)
    (position : Int) : List Card :=
  let sourceColumnId := card.columnId
  let sourcePosition := card.position
  if sourceColumnId = columnId then
    if sourcePosition = position then
      cards
    else
      let shifted :=
        if sourcePosition < position then
          cards.map (fun c =>
            if c.columnId = columnId ∧ c.isArchived = false ∧
                sourcePosition + 1 ≤ c.position ∧ c.position ≤ position then
              { c with position := c.position - 1 }
            else c)
        else
          cards.map (fun c =>
            if c.columnId = columnId ∧ c.isArchived = false ∧
                position ≤ c.position ∧ c.position ≤ sourcePosition - 1 then
              { c with position := c.position + 1 }
            else c)
      shifted.map (fun c =>
        if c.id = card.id then { c with columnId := columnId, position := position } else c)
  else
    let s1 := cards.map (fun c =>
      if c.columnId = sourceColumnId ∧ c.isArchived = false ∧
          sourcePosition + 1 ≤ c.position then
        { c with position := c.position - 1 }
      else c)
    let s2 := s1.map (fun c =>
      if c.columnId = columnId ∧ c.isArchived = false ∧ position ≤ c.position then
        { c with position := c.position + 1 }
      else c)
    s2.map (fun c =>
      if c.id = card.id then { c with columnId := columnId, position := position } else c)

/-- Tags of the activity records the modeled endpoints write. -/
inductive ActKind
  | boardDeleted
  | columnCreated
  | columnDeleted
  | columnReordered
  | cardCreated
  | cardMoved
  | cardDeleted
  deriving DecidableEq, Repr

/-- A row of `kanban_activities` (the fields the core writes). -/
structure Activity where
  boardId : Nat
  kind : ActKind
  userId : Nat
  deriving DecidableEq, Repr

/-- One observable side-effecting step of a handler: a database write to
board/column/card state, or an append to the activity log. -/
inductive Ev
  | mutate
  | log
  deriving DecidableEq, Repr

/-- Response classes of the handlers (HTTP statuses 200/201/401/403/404/400). -/
inductive Resp
  | ok
  | created
  | notFound
  | forbidden
  | badRequest
  deriving DecidableEq, Repr

/-- The persistent state the modeled handlers read and write. -/
structure KState where
  boards : List Board
  boardMembers : List BoardMember
  teamMembers : List TeamMember
  columns : List Column
  cards : List Card
  activities : List Activity
  deriving DecidableEq, Repr

/-- `POST boards/[boardId]/cards`: access check, edit gate, title validation,
column-in-board check, then insert the card and log `card_created`. -/
def cardsPOST (st : KState) (uid boardId columnId : Nat) (title : String)
    (pos? : Option Int) (newId : Nat) : Resp × KState × List Ev :=
  match checkBoardAccess st.boards st.boardMembers st.teamMembers boardId uid with
  | none => (Resp.notFound, st, [])
  | some role =>
    if !canEdit role then
      (Resp.forbidden, st, [])
    else if title.trim == "" then
      (Resp.badRequest, st, [])
    else
      match st.columns.find? (fun c => c.id == columnId && c.boardId == boardId) with
      | none => (Resp.notFound, st, [])
      | some _ =>
        (Resp.created,
         { st with
            cards := createCard st.cards columnId boardId pos? newId,
            activities := st.activities ++ [⟨boardId, ActKind.cardCreated, uid⟩] },
         [Ev.mutate, Ev.log])

/-- `POST boards/[boardId]/columns`: access check, edit gate, name validation,
then (conditional shift write and) insert, then log `column_created`. -/
def columnsPOST (st : KState) (uid boardId : Nat) (name : String)
    (pos? : Option Int) (newId : Nat) : Resp × KState × List Ev :=
  match checkBoardAccess st.boards st.boardMembers st.teamMembers boardId uid with
  | none => (Resp.notFound, st, [])
  | some role =>
    if !canEdit role then
      (Resp.forbidden, st, [])
    else if name.trim == "" then
      (Resp.badRequest, st, [])
    else
      let mp := maxPos?
        ((st.columns.filter (fun c => c.boardId == boardId)).map (fun c => c.position))
      let doShift :=
        match pos? with
        | some p => decide (p ≤ mp.getD 0)
        | none => false
      (Resp.created,
       { st with
          columns := createColumn st.columns boardId name.trim pos? newId,
          activities := st.activities ++ [⟨boardId, ActKind.columnCreated, uid⟩] },
       (if doShift then [Ev.mutate] else []) ++ [Ev.mutate, Ev.log])

/-- `DELETE boards/[boardId]/columns/[columnId]`: access check, edit gate,
column lookup by id, then log `column_deleted` BEFORE deleting the column and
renumbering the remaining columns (one update statement each). -/
def columnsDELETE (st : KState) (uid boardId columnId : Nat) :
    Resp × KState × List Ev :=
  match checkBoardAccess st.boards st.boardMembers st.teamMembers boardId uid with
  | none => (Resp.notFound, st, [])
  | some role =>
    if !canEdit role then
      (Resp.forbidden, st, [])
    else
      match st.columns.find? (fun c => c.id == columnId) with
      | none => (Resp.notFound, st, [])
      | some _ =>
        let res := deleteColumn st.columns st.cards boardId columnId
        let nRemaining :=
          ((st.columns.filter (fun c => !(c.id == columnId))).filter
            (fun c => c.boardId == boardId)).length
        (Resp.ok,
         { st with
            columns := res.1,
            cards := res.2,
            activities := st.activities ++ [⟨boardId, ActKind.columnDeleted, uid⟩] },
         [Ev.log, Ev.mutate] ++ List.replicate nRemaining Ev.mutate)

/-- `DELETE boards/[boardId]`: access check, owner gate, board lookup, then
log `board_deleted` BEFORE deleting the board; the delete cascades to the
board's columns, cards, members and activities. -/
def boardsDELETE (st : KState) (uid boardId : Nat) : Resp × KState × List Ev :=
  match checkBoardAccess st.boards st.boardMembers st.teamMembers boardId uid with
  | none => (Resp.notFound, st, [])
  | some role =>
    if !canDelete role then
      (Resp.forbidden, st, [])
    else
      match st.boards.find? (fun b => b.id == boardId) with
      | none => (Resp.notFound, st, [])
      | some _ =>
        let acts1 := st.activities ++ [⟨boardId, ActKind.boardDeleted, uid⟩]
        (Resp.ok,
         { boards := st.boards.filter (fun b => !(b.id == boardId)),
           boardMembers := st.boardMembers.filter (fun m => !(m.boardId == boardId)),
           teamMembers := st.teamMembers,
           columns := st.columns.filter (fun c => !(c.boardId == boardId)),
           cards := st.cards.filter (fun c => !(c.boardId == boardId)),
           activities := acts1.filter (fun a => !(a.boardId == boardId)) },
         [Ev.log, Ev.mutate])

/-- `DELETE cards/[cardId]`: card lookup, access check, edit gate, then log
`card_deleted` BEFORE deleting the card row. -/
def cardDELETE (st : KState) (uid cardId : Nat) : Resp × KState × List Ev :=
  match st.cards.find? (fun c => c.id == cardId) with
  | none => (Resp.notFound, st, [])
  | some card =>
    match checkBoardAccess st.boards st.boardMembers st.teamMembers card.boardId uid with
    | none => (Resp.forbidden, st, [])
    | some role =>
      if !canEdit role then
        (Resp.forbidden, st, [])
      else
        (Resp.ok,
         { st with
            cards := deleteCard st.cards cardId,
            activities := st.activities ++ [⟨card.boardId, ActKind.cardDeleted, uid⟩] },
         [Ev.log, Ev.mutate])

/-- `POST cards/[cardId]/move`: card lookup, access check, edit gate, position
validation, target-column-in-board check, no-op early return, then the shift
writes and the moved-card write, then log `card_moved` only when the source
and target column names differ. -/
def cardMovePOST (st : KState) (uid cardId columnId : Nat) (position : Int) :
    Resp × KState × List Ev :=
  match st.cards.find? (fun c => c.id == cardId) with
  | none => (Resp.notFound, st, [])
  | some card =>
    match checkBoardAccess st.boards st.boardMembers st.teamMembers card.boardId uid with
    | none => (Resp.forbidden, st, [])
    | some role =>
      if !canEdit role then
        (Resp.forbidden, st, [])
      else if position < 0 then
        (Resp.badRequest, st, [])
      else
        match st.columns.find? (fun c => c.id == columnId && c.boardId == card.boardId) with
        | none => (Resp.notFound, st, [])
        | some targetColumn =>
          if card.columnId = columnId ∧ card.position = position then
            (Resp.ok, st, [])
          else
            let cards' := moveCardCore st.cards card columnId position
            let fromName :=
              ((st.columns.find? (fun c => c.id == card.columnId)).map
                (fun c => c.name)).getD "Unknown"
            let doLog := fromName ≠ targetColumn.name
            let acts :=
              if doLog then st.activities ++ [⟨card.boardId, ActKind.cardMoved, uid⟩]
              else st.activities
            let mutTrace :=
              if card.columnId = columnId then [Ev.mutate, Ev.mutate]
              else [Ev.mutate, Ev.mutate, Ev.mutate]
            (Resp.ok,
             { st with cards := cards', activities := acts },
             mutTrace ++ (if doLog then [Ev.log] else []))

/-- `POST boards/[boardId]/columns/reorder`: access check, edit gate,
non-empty-list validation, then one position write per listed id, then log
`column_reordered`. -/
def columnsReorderPOST (st : KState) (uid boardId : Nat) (columnIds : List Nat) :
    Resp × KState × List Ev :=
  match checkBoardAccess st.boards st.boardMembers st.teamMembers boardId uid with
  | none => (Resp.notFound, st, [])
  | some role =>
    if !canEdit role then
      (Resp.forbidden, st, [])
    else if columnIds.isEmpty then
      (Resp.badRequest, st, [])
    else
      (Resp.ok,
       { st with
          columns := reorderColumns st.columns columnIds,
          activities := st.activities ++ [⟨boardId, ActKind.columnReordered, uid⟩] },
       columnIds.map (fun _ => Ev.mutate) ++ [Ev.log])

/-- Insert into a sorted list of integers. -/
def insertSorted (x : Int) : List Int → List Int
  | [] => [x]
  | y :: ys => if x ≤ y then x :: y :: ys else y :: insertSorted x ys

/-- Sort a list of integers ascending. -/
def sortInts (ps : List Int) : List Int :=
  ps.foldr insertSorted []

/-- The live position scope of a column: positions of its non-archived cards. -/
def cardPositions (cards : List Card) (columnId : Nat) : List Int :=
  (cards.filter (fun c => c.columnId == columnId && !c.isArchived)).map (fun c => c.position)

/-- The position scope of a board: positions of its columns. -/
def columnPositions (cols : List Column) (boardId : Nat) : List Int :=
  (cols.filter (fun c => c.boardId == boardId)).map (fun c => c.position)

/-- Density: the sorted positions are exactly `[0, 1, ..., N-1]`. -/
def isDense (ps : List Int) : Bool :=
  sortInts ps == (List.range ps.length).map (fun n => (n : Int))

/-- Index of the first occurrence of `x` (length of the list if absent). -/
def idxIn : List Nat → Nat → Nat
  | [], _ => 0
  | i :: is, x => if i = x then 0 else idxIn is x + 1

/-- Every log event in the trace is preceded by at least one mutation. -/
def logsAfterMutateAux (seen : Bool) : List Ev → Bool
  | [] => true
  | Ev.mutate :: r => logsAfterMutateAux true r
  | Ev.log :: r => seen && logsAfterMutateAux seen r

/-- A trace appends activity records only after a state mutation happened. -/
def logsAfterMutate (tr : List Ev) : Bool :=
  logsAfterMutateAux false tr

/-- A trace is empty, or one log immediately followed by the mutations. -/
def logThenMutates : List Ev → Bool
  | [] => true
  | Ev.log :: rest => !rest.isEmpty && rest.all (fun e => e == Ev.mutate)
  | _ => false

/-! ## Shared helper lemmas -/

/-- Generalized closed form of the reorder fold: starting the position counter
at `k`, each column whose id occurs in `ids` ends at `k` plus the index of its
first occurrence. -/
theorem reorder_aux (ids : List Nat) (k : Nat) (cols : List Column) (h : ids.Nodup) :
    (ids.enumFrom k).foldl (fun acc ic => setColPos acc ic.2 (ic.1 : Int)) cols =
      cols.map (fun c =>
        if c.id ∈ ids then { c with position := ((k + idxIn ids c.id : Nat) : Int) } else c) := by
  induction ids generalizing k cols with
  | nil =>
    simp [List.enumFrom]
  | cons cid rest ih =>
    have hnd : rest.Nodup := h.of_cons
    have hni : cid ∉ rest := (List.nodup_cons.mp h).1
    rw [List.enumFrom_cons]
    rw [List.foldl_cons]
    rw [ih (k + 1) _ hnd]
    unfold setColPos
    rw [List.map_map]
    apply congrArg (fun f => List.map f cols)
    funext c
    by_cases hc : c.id = cid
    · simp only [Function.comp_apply, hc, if_pos rfl]
      have : cid ∉ rest := hni
      simp only [List.mem_cons, hc]
      rw [if_neg (by simpa [hc] using this)]
      simp [idxIn, hc]
    · simp only [Function.comp_apply, if_neg hc]
      by_cases hm : c.id ∈ rest
      · rw [if_pos hm, if_pos (List.mem_cons.mpr (Or.inr hm))]
        have : idxIn (cid :: rest) c.id = idxIn rest c.id + 1 := by
          simp [idxIn, Ne.symm hc]
        rw [this]
        congr 1
        push_cast
        ring
      · rw [if_neg hm, if_neg (by simp [hc, hm])]

/-- Closed form of `reorderColumns`: any column whose id occurs in the request
list gets the index of that occurrence as its position; every other column —
of any board — is untouched. -/
theorem reorderColumns_closedForm (cols : List Column) (ids : List Nat) (h : ids.Nodup) :
    reorderColumns cols ids =
      cols.map (fun c =>
        if c.id ∈ ids then { c with position := (idxIn ids c.id : Int) } else c) := by
  unfold reorderColumns
  rw [show ids.enum = ids.enumFrom 0 from rfl]
  rw [reorder_aux ids 0 cols h]
  simp

theorem logsAfterMutateAux_replicate (n : Nat) :
    logsAfterMutateAux true (List.replicate n Ev.mutate ++ [Ev.log]) = true := by
  induction n with
  | zero => rfl
  | succ m ih => simpa [List.replicate, logsAfterMutateAux] using ih

theorem all_mutate_replicate (n : Nat) :
    (List.replicate n Ev.mutate).all (fun e => e == Ev.mutate) = true := by
  induction n with
  | zero => rfl
  | succ m ih => simpa [List.replicate] using ih

theorem logsAfterMutateAux_map (l : List Nat) :
    logsAfterMutateAux true (l.map (fun _ => Ev.mutate) ++ [Ev.log]) = true := by
  induction l with
  | nil => rfl
  | cons a l' ih => simpa [logsAfterMutateAux] using ih

theorem logsAfterMutate_mapLog (l : List Nat) (h : l ≠ []) :
    logsAfterMutate (l.map (fun _ => Ev.mutate) ++ [Ev.log]) = true := by
  cases l with
  | nil => cases h rfl
  | cons a l' =>
    simpa [logsAfterMutate, logsAfterMutateAux] using logsAfterMutateAux_map l'

theorem logThenMutates_shape (n : Nat) :
    logThenMutates ([Ev.log, Ev.mutate] ++ List.replicate n Ev.mutate) = true := by
  simp [logThenMutates, all_mutate_replicate n]

/-! ## Claim theorems -/

/-- C1: the density invariant fails on the code.  In a column whose single
non-archived card sits at position 0 — a dense scope — creating a card at the
explicit (in-range) position 0 yields the position multiset `{0, 0}` instead
of `{0, 1}`: the card-create handler writes the new card at the requested
position without shifting any existing card. -/
theorem C1_cardCreate_breaks_density :
    cardPositions (createCard [⟨1, 1, 1, 0, false⟩] 1 1 (some 0) 2) 1 = [0, 0] ∧
    isDense (cardPositions (createCard [⟨1, 1, 1, 0, false⟩] 1 1 (some 0) 2) 1) = false := by
  constructor <;> rfl

/-- C2: a same-column move with destination `dst` is a no-op when
`dst = src`; when `src < dst` exactly the non-archived cards of the column
with position in `(src, dst]` are decremented by one and the moved card is
written at `dst`; when `dst < src` exactly those with position in
`[dst, src)` are incremented by one and the moved card is written at `dst`;
every other card is untouched. -/
theorem C2_move_within_column (cards : List Card) (card : Card) (dst : Int)
    (hmem : card ∈ cards)
    (hnd : (cards.map (fun c => c.id)).Nodup)
    (hsrc : 0 ≤ card.position) (hdst : 0 ≤ dst) :
    (card.position = dst → moveCardCore cards card card.columnId dst = cards) ∧
    (card.position < dst → moveCardCore cards card card.columnId dst =
      cards.map (fun c =>
        if c.id = card.id then { c with columnId := card.columnId, position := dst }
        else if c.columnId = card.columnId ∧ c.isArchived = false ∧
            card.position < c.position ∧ c.position ≤ dst then
          { c with position := c.position - 1 }
        else c)) ∧
    (dst < card.position → moveCardCore cards card card.columnId dst =
      cards.map (fun c =>
        if c.id = card.id then { c with columnId := card.columnId, position := dst }
        else if c.columnId = card.columnId ∧ c.isArchived = false ∧
            dst ≤ c.position ∧ c.position < card.position then
          { c with position := c.position + 1 }
        else c)) := by
  have hinj := List.inj_on_of_nodup_map hnd
  refine ⟨?_, ?_, ?_⟩
  · intro h
    unfold moveCardCore
    simp [h]
  · intro h
    unfold moveCardCore
    rw [if_pos rfl, if_neg (by omega), if_pos h, List.map_map]
    apply List.map_congr_left
    intro c hc
    simp only [Function.comp_apply]
    by_cases hid : c.id = card.id
    · have hceq : c = card := hinj hc hmem hid
      subst hceq
      simp [show ¬(c.position + 1 ≤ c.position) from by omega]
    · by_cases hA : c.columnId = card.columnId ∧ c.isArchived = false ∧
          card.position + 1 ≤ c.position ∧ c.position ≤ dst
      · have h3 : card.position < c.position := by omega
        simp [hA.1, hA.2.1, hA.2.2.1, hA.2.2.2, hid, h3]
      · rw [if_neg hA]
        have hB : ¬(c.columnId = card.columnId ∧ c.isArchived = false ∧
            card.position < c.position ∧ c.position ≤ dst) :=
          fun hB => hA ⟨hB.1, hB.2.1, by omega, hB.2.2.2⟩
        rw [if_neg hid, if_neg hB, if_neg hid]
  · intro h
    unfold moveCardCore
    rw [if_pos rfl, if_neg (by omega), if_neg (by omega), List.map_map]
    apply List.map_congr_left
    intro c hc
    simp only [Function.comp_apply]
    by_cases hid : c.id = card.id
    · have hceq : c = card := hinj hc hmem hid
      subst hceq
      simp [show ¬(c.position ≤ c.position - 1) from by omega]
    · by_cases hA : c.columnId = card.columnId ∧ c.isArchived = false ∧
          dst ≤ c.position ∧ c.position ≤ card.position - 1
      · have h3 : c.position < card.position := by omega
        simp [hA.1, hA.2.1, hA.2.2.1, hA.2.2.2, hid, h3]
      · rw [if_neg hA]
        have hB : ¬(c.columnId = card.columnId ∧ c.isArchived = false ∧
            dst ≤ c.position ∧ c.position < card.position) :=
          fun hB => hA ⟨hB.1, hB.2.1, hB.2.2.1, by omega⟩
        rw [if_neg hid, if_neg hB, if_neg hid]

/-- C2 witness: the spec's same-column scenario — cards `c0..c3` at
`[0,1,2,3]`, moving `c0` from 0 to 2 gives `c0:2, c1:0, c2:1, c3:3`. -/
theorem C2_witness :
    moveCardCore [⟨1, 1, 1, 0, false⟩, ⟨2, 1, 1, 1, false⟩, ⟨3, 1, 1, 2, false⟩, ⟨4, 1, 1, 3, false⟩]
      ⟨1, 1, 1, 0, false⟩ 1 2 =
      [⟨1, 1, 1, 2, false⟩, ⟨2, 1, 1, 0, false⟩, ⟨3, 1, 1, 1, false⟩, ⟨4, 1, 1, 3, false⟩] := by
  rw [(C2_move_within_column
    [⟨1, 1, 1, 0, false⟩, ⟨2, 1, 1, 1, false⟩, ⟨3, 1, 1, 2, false⟩, ⟨4, 1, 1, 3, false⟩]
    ⟨1, 1, 1, 0, false⟩ 2 (by decide) (by decide) (by decide) (by decide)).2.1 (by decide)]
  decide

/-- C3: a cross-column move decrements exactly the non-archived source-column
cards strictly above the source position, increments exactly the non-archived
target-column cards at or above the destination, and writes the moved card
with the target column id and the destination position; all other cards are
untouched. -/
theorem C3_move_across_columns (cards : List Card) (card : Card) (tgt : Nat) (dst : Int)
    (hmem : card ∈ cards)
    (hnd : (cards.map (fun c => c.id)).Nodup)
    (hcol : tgt ≠ card.columnId)
    (hdst : 0 ≤ dst) :
    moveCardCore cards card tgt dst =
      cards.map (fun c =>
        if c.id = card.id then { c with columnId := tgt, position := dst }
        else if c.columnId = card.columnId ∧ c.isArchived = false ∧
            card.position < c.position then
          { c with position := c.position - 1 }
        else if c.columnId = tgt ∧ c.isArchived = false ∧ dst ≤ c.position then
          { c with position := c.position + 1 }
        else c) := by
  have hinj := List.inj_on_of_nodup_map hnd
  unfold moveCardCore
  rw [if_neg (fun hx => hcol hx.symm), List.map_map, List.map_map]
  apply List.map_congr_left
  intro c hc
  simp only [Function.comp_apply]
  by_cases hid : c.id = card.id
  · have hceq : c = card := hinj hc hmem hid
    subst hceq
    rw [if_neg (show ¬(c.columnId = c.columnId ∧ c.isArchived = false ∧
        c.position + 1 ≤ c.position) from fun hx => by omega)]
    rw [if_neg (show ¬(c.columnId = tgt ∧ c.isArchived = false ∧ dst ≤ c.position) from
        fun hx => hcol hx.1.symm)]
    simp
  · by_cases hA : c.columnId = card.columnId ∧ c.isArchived = false ∧
        card.position + 1 ≤ c.position
    · have hnt : ¬(card.columnId = tgt) := fun hx => hcol hx.symm
      have h3 : card.position < c.position := by omega
      simp [hA.1, hA.2.1, hA.2.2, hid, h3, hnt]
    · rw [if_neg hA]
      by_cases hB : c.columnId = tgt ∧ c.isArchived = false ∧ dst ≤ c.position
      · simp [hB.1, hB.2.1, hB.2.2, hid, hcol]
      · rw [if_neg hB, if_neg hid]
        have hA' : ¬(c.columnId = card.columnId ∧ c.isArchived = false ∧
            card.position < c.position) := fun hx => hA ⟨hx.1, hx.2.1, by omega⟩
        simp [hid, hA', hB]

/-- C3 witness: the spec's cross-column scenario — column 1 holds `a0,a1,a2`
at `[0,1,2]`, column 2 holds `b0,b1` at `[0,1]`; moving `a1` to column 2 at
position 1 gives column 1 = `a0:0, a2:1` and column 2 = `b0:0, a1:1, b1:2`. -/
theorem C3_witness :
    moveCardCore [⟨1, 1, 1, 0, false⟩, ⟨2, 1, 1, 1, false⟩, ⟨3, 1, 1, 2, false⟩,
        ⟨4, 2, 1, 0, false⟩, ⟨5, 2, 1, 1, false⟩] ⟨2, 1, 1, 1, false⟩ 2 1 =
      [⟨1, 1, 1, 0, false⟩, ⟨2, 2, 1, 1, false⟩, ⟨3, 1, 1, 1, false⟩,
        ⟨4, 2, 1, 0, false⟩, ⟨5, 2, 1, 2, false⟩] := by
  rw [C3_move_across_columns [⟨1, 1, 1, 0, false⟩, ⟨2, 1, 1, 1, false⟩, ⟨3, 1, 1, 2, false⟩,
      ⟨4, 2, 1, 0, false⟩, ⟨5, 2, 1, 1, false⟩] ⟨2, 1, 1, 1, false⟩ 2 1
      (by decide) (by decide) (by decide) (by decide)]
  decide

/-- C4: the shifting insert contract fails for cards.  Inserting a card at the
explicit position 0 into a column of two cards at `[0, 1]` leaves the existing
cards unshifted and writes the new card at 0, producing positions
`[0, 1, 0]` — a duplicated position instead of a dense `0..2` scope. -/
theorem C4_cardInsert_does_not_shift :
    createCard [⟨1, 1, 1, 0, false⟩, ⟨2, 1, 1, 1, false⟩] 1 1 (some 0) 3 =
      [⟨1, 1, 1, 0, false⟩, ⟨2, 1, 1, 1, false⟩, ⟨3, 1, 1, 0, false⟩] ∧
    isDense (cardPositions
      (createCard [⟨1, 1, 1, 0, false⟩, ⟨2, 1, 1, 1, false⟩] 1 1 (some 0) 3) 1) = false := by
  constructor <;> rfl

/-- C5: the delete-compaction contract fails for cards.  Deleting the card at
position 1 from a column with cards at `[0, 1, 2]` removes only that row; the
card at position 2 is not decremented, leaving the non-dense scope `[0, 2]`. -/
theorem C5_cardDelete_does_not_compact :
    deleteCard [⟨1, 1, 1, 0, false⟩, ⟨2, 1, 1, 1, false⟩, ⟨3, 1, 1, 2, false⟩] 2 =
      [⟨1, 1, 1, 0, false⟩, ⟨3, 1, 1, 2, false⟩] ∧
    isDense (cardPositions
      (deleteCard [⟨1, 1, 1, 0, false⟩, ⟨2, 1, 1, 1, false⟩, ⟨3, 1, 1, 2, false⟩] 2) 1) = false := by
  constructor <;> rfl

/-- C6: the reorder endpoint does not reject identifiers outside the board's
scope.  Board 1 has columns `X:0, Y:1`; column `W` (id 3) belongs to board 2.
Reordering board 1 with the list `[X, W]` succeeds (no client error) and
silently sets `W`'s position to 1 — a column of a different board is changed
and nothing is rolled back. -/
theorem C6_reorder_accepts_foreign_id :
    (columnsReorderPOST ⟨[⟨1, 10, BType.personal, none⟩, ⟨2, 11, BType.personal, none⟩], [], [],
        [⟨1, 1, "X", 0⟩, ⟨2, 1, "Y", 1⟩, ⟨3, 2, "W", 0⟩], [], []⟩ 10 1 [1, 3]).1 = Resp.ok ∧
    (columnsReorderPOST ⟨[⟨1, 10, BType.personal, none⟩, ⟨2, 11, BType.personal, none⟩], [], [],
        [⟨1, 1, "X", 0⟩, ⟨2, 1, "Y", 1⟩, ⟨3, 2, "W", 0⟩], [], []⟩ 10 1 [1, 3]).2.1.columns =
      [⟨1, 1, "X", 0⟩, ⟨2, 1, "Y", 1⟩, ⟨3, 2, "W", 1⟩] := by
  constructor <;> rfl

/-- C7: role resolution is strict first-match-wins.  With the board row
found: a caller who is the creator resolves to owner regardless of any member
row; otherwise an existing BoardMember row's role is returned; otherwise a
team board with a matching team membership yields editor; otherwise the
caller has no access. -/
theorem C7_role_resolution_order (boards : List Board) (members : List BoardMember)
    (teams : List TeamMember) (bid uid : Nat) (board : Board)
    (hb : boards.find? (fun b => b.id == bid) = some board) :
    (board.createdBy = uid →
      checkBoardAccess boards members teams bid uid = some Role.owner) ∧
    (board.createdBy ≠ uid → ∀ m : BoardMember,
      members.find? (fun x => x.boardId == bid && x.userId == uid) = some m →
      checkBoardAccess boards members teams bid uid = some m.role) ∧
    (board.createdBy ≠ uid →
      members.find? (fun x => x.boardId == bid && x.userId == uid) = none →
      ∀ tid : Nat, board.teamId = some tid → board.btype = BType.team →
      teams.any (fun t => t.teamId == tid && t.userId == uid) = true →
      checkBoardAccess boards members teams bid uid = some Role.editor) ∧
    (board.createdBy ≠ uid →
      members.find? (fun x => x.boardId == bid && x.userId == uid) = none →
      (∀ tid : Nat, board.teamId = some tid →
        board.btype = BType.team → teams.any (fun t => t.teamId == tid && t.userId == uid) = false) →
      checkBoardAccess boards members teams bid uid = none) := by
  refine ⟨?_, ?_, ?_, ?_⟩
  · intro h
    unfold checkBoardAccess
    rw [hb]
    simp [h]
  · intro h m hm
    unfold checkBoardAccess
    rw [hb]
    simp [h, hm]
  · intro h hnone tid htid hteam hany
    unfold checkBoardAccess
    rw [hb]
    simp [h, hnone, htid, hteam, hany]
  · intro h hnone hno
    unfold checkBoardAccess
    rw [hb]
    simp only [beq_iff_eq, h, if_false, hnone]
    match htid : board.teamId with
    | none => rfl
    | some tid =>
      have := hno tid htid
      cases hbt : board.btype with
      | personal => simp [hbt]
      | team => simp [hbt, this hbt]

/-- C7 witness: the spec's priority scenario — the creator of board 1 is also
listed as a BoardMember with role viewer, yet resolves to owner. -/
theorem C7_witness :
    checkBoardAccess [⟨1, 10, BType.personal, none⟩] [⟨1, 10, Role.viewer⟩] [] 1 10 =
      some Role.owner :=
  (C7_role_resolution_order [⟨1, 10, BType.personal, none⟩] [⟨1, 10, Role.viewer⟩] []
    1 10 ⟨1, 10, BType.personal, none⟩ rfl).1 rfl

/-- C8: a caller who resolves to NoAccess, or whose role fails the edit
predicate, gets an error from the card-create and card-move endpoints and the
operation has no side effect: the returned state is exactly the input state
(so no board/column/card change and no activity append) and the event trace
is empty. -/
theorem C8_denied_mutation_no_side_effect (st : KState)
    (uid boardId columnId cardId newId : Nat) (title : String)
    (pos? : Option Int) (position : Int) (card : Card) (role : Role)
    (hcard : st.cards.find? (fun c => c.id == cardId) = some card) :
    (checkBoardAccess st.boards st.boardMembers st.teamMembers boardId uid = none →
      cardsPOST st uid boardId columnId title pos? newId = (Resp.notFound, st, [])) ∧
    (checkBoardAccess st.boards st.boardMembers st.teamMembers boardId uid = some role →
      canEdit role = false →
      cardsPOST st uid boardId columnId title pos? newId = (Resp.forbidden, st, [])) ∧
    (checkBoardAccess st.boards st.boardMembers st.teamMembers card.boardId uid = none →
      cardMovePOST st uid cardId columnId position = (Resp.forbidden, st, [])) ∧
    (checkBoardAccess st.boards st.boardMembers st.teamMembers card.boardId uid = some role →
      canEdit role = false →
      cardMovePOST st uid cardId columnId position = (Resp.forbidden, st, [])) := by
  refine ⟨?_, ?_, ?_, ?_⟩
  · intro h
    unfold cardsPOST
    rw [h]
  · intro h hedit
    unfold cardsPOST
    rw [h]
    simp [hedit]
  · intro h
    unfold cardMovePOST
    rw [hcard]
    dsimp only
    rw [h]
  · intro h hedit
    unfold cardMovePOST
    rw [hcard]
    dsimp only
    rw [h]
    simp [hedit]

/-- C8 witness: the spec's denial scenario — caller 20 is a viewer member of
board 1 and attempts to create a card: the endpoint returns 403 and the state,
including the activity log, is byte-for-byte unchanged. -/
theorem C8_witness :
    cardsPOST ⟨[⟨1, 10, BType.personal, none⟩], [⟨1, 20, Role.viewer⟩], [],
        [⟨1, 1, "X", 0⟩], [⟨1, 1, 1, 0, false⟩], []⟩ 20 1 1 "T" none 9 =
      (Resp.forbidden, ⟨[⟨1, 10, BType.personal, none⟩], [⟨1, 20, Role.viewer⟩], [],
        [⟨1, 1, "X", 0⟩], [⟨1, 1, 1, 0, false⟩], []⟩, []) :=
  (C8_denied_mutation_no_side_effect
    ⟨[⟨1, 10, BType.personal, none⟩], [⟨1, 20, Role.viewer⟩], [],
      [⟨1, 1, "X", 0⟩], [⟨1, 1, 1, 0, false⟩], []⟩
    20 1 1 1 9 "T" none 0 ⟨1, 1, 1, 0, false⟩ Role.viewer rfl).2.1 rfl rfl

/-- C9 counterexample: the column-delete endpoint appends its activity record
BEFORE performing any state mutation.  On a board with columns `X:0, Y:1, Z:2`
deleting `Y` yields the event trace `[log, mutate, mutate, mutate]`, so the
log is not after the mutation. -/
theorem C9_counterexample :
    (columnsDELETE ⟨[⟨1, 10, BType.personal, none⟩], [], [],
      [⟨1, 1, "X", 0⟩, ⟨2, 1, "Y", 1⟩, ⟨3, 1, "Z", 2⟩], [], []⟩ 10 1 2).2.2 =
      [Ev.log, Ev.mutate, Ev.mutate, Ev.mutate] ∧
    logsAfterMutate (columnsDELETE ⟨[⟨1, 10, BType.personal, none⟩], [], [],
      [⟨1, 1, "X", 0⟩, ⟨2, 1, "Y", 1⟩, ⟨3, 1, "Z", 2⟩], [], []⟩ 10 1 2).2.2 = false := by
  constructor <;> rfl

/-- C9 amended: in the create, move and reorder endpoints every activity
record is appended only after a state mutation has happened; in the delete
endpoints (column, board, card) the record is instead appended immediately
before the deletion writes. -/
theorem C9_amended_log_order :
    (∀ st uid boardId name pos? newId,
      logsAfterMutate (columnsPOST st uid boardId name pos? newId).2.2 = true) ∧
    (∀ st uid boardId columnId title pos? newId,
      logsAfterMutate (cardsPOST st uid boardId columnId title pos? newId).2.2 = true) ∧
    (∀ st uid cardId columnId position,
      logsAfterMutate (cardMovePOST st uid cardId columnId position).2.2 = true) ∧
    (∀ st uid boardId columnIds,
      logsAfterMutate (columnsReorderPOST st uid boardId columnIds).2.2 = true) ∧
    (∀ st uid boardId columnId,
      logThenMutates (columnsDELETE st uid boardId columnId).2.2 = true) ∧
    (∀ st uid boardId, logThenMutates (boardsDELETE st uid boardId).2.2 = true) ∧
    (∀ st uid cardId, logThenMutates (cardDELETE st uid cardId).2.2 = true) := by
  refine ⟨?_, ?_, ?_, ?_, ?_, ?_, ?_⟩
  · intro st uid boardId name pos? newId
    unfold columnsPOST
    split
    · rfl
    · split
      · rfl
      · split
        · rfl
        · dsimp only
          split <;> rfl
  · intro st uid boardId columnId title pos? newId
    unfold cardsPOST
    split
    · rfl
    · split
      · rfl
      · split
        · rfl
        · split <;> rfl
  · intro st uid cardId columnId position
    unfold cardMovePOST
    split
    · rfl
    · split
      · rfl
      · split
        · rfl
        · split
          · rfl
          · split
            · rfl
            · split
              · rfl
              · dsimp only
                split <;> split <;> rfl
  · intro st uid boardId columnIds
    unfold columnsReorderPOST
    split
    · rfl
    · split
      · rfl
      · split
        · rfl
        · dsimp only
          apply logsAfterMutate_mapLog
          intro hnil
          simp_all
  · intro st uid boardId columnId
    unfold columnsDELETE
    split
    · rfl
    · split
      · rfl
      · split
        · rfl
        · dsimp only
          exact logThenMutates_shape _
  · intro st uid boardId
    unfold boardsDELETE
    split
    · rfl
    · split
      · rfl
      · split <;> rfl
  · intro st uid cardId
    unfold cardDELETE
    split
    · rfl
    · split
      · rfl
      · split <;> rfl

/-- C10: the reorder endpoint matches columns by id alone.  For any caller
whose edit permission was checked on board `bid`, any column `c` of a
DIFFERENT board whose id sits at index `i` of the submitted duplicate-free
list ends up with position `i`, and the request succeeds. -/
theorem C10_reorder_ignores_board_scope (st : KState) (uid bid : Nat)
    (ids : List Nat) (role : Role) (c : Column) (i : Nat)
    (hrole : checkBoardAccess st.boards st.boardMembers st.teamMembers bid uid = some role)
    (hedit : canEdit role = true)
    (hne : ids ≠ [])
    (hnodup : ids.Nodup)
    (hc : c ∈ st.columns)
    (hmem : c.id ∈ ids)
    (hidx : idxIn ids c.id = i)
    (hboard : c.boardId ≠ bid) :
    (columnsReorderPOST st uid bid ids).1 = Resp.ok ∧
    { c with position := (i : Int) } ∈ (columnsReorderPOST st uid bid ids).2.1.columns := by
  unfold columnsReorderPOST
  rw [hrole]
  dsimp only
  rw [hedit]
  simp only [Bool.not_true, Bool.false_eq_true, if_false, List.isEmpty_eq_true, hne]
  refine ⟨trivial, ?_⟩
  rw [reorderColumns_closedForm st.columns ids hnodup]
  have := List.mem_map_of_mem (fun c : Column =>
      if c.id ∈ ids then { c with position := (idxIn ids c.id : Int) } else c) hc
  simpa [hmem, hidx] using this

/-- C10 witness: caller 10 owns board 1 but not board 2; reordering board 1
with the id list `[5, 3]` sets column 3 — a column of board 2 — to
position 1, and the request reports success. -/
theorem C10_witness :
    (columnsReorderPOST ⟨[⟨1, 10, BType.personal, none⟩, ⟨2, 11, BType.personal, none⟩], [], [],
        [⟨1, 1, "X", 0⟩, ⟨2, 1, "Y", 1⟩, ⟨3, 2, "W", 0⟩], [], []⟩ 10 1 [5, 3]).1 = Resp.ok ∧
    (⟨3, 2, "W", 1⟩ : Column) ∈
      (columnsReorderPOST ⟨[⟨1, 10, BType.personal, none⟩, ⟨2, 11, BType.personal, none⟩], [], [],
        [⟨1, 1, "X", 0⟩, ⟨2, 1, "Y", 1⟩, ⟨3, 2, "W", 0⟩], [], []⟩ 10 1 [5, 3]).2.1.columns :=
  C10_reorder_ignores_board_scope _ 10 1 [5, 3] Role.owner ⟨3, 2, "W", 0⟩ 1 rfl rfl
    (by decide) (by decide) (by simp) (by decide) (by decide) (by decide)

end Kanban
